import Mathlib

/-!
Shallow embedding of the batchy segment writer (src/src/main.rs, with the
orphaned module src/src/admin.rs embedded separately where a claim cites it).

Bytes are modelled as naturals below 256.  The zstd encoder is modelled as the
plain sequence of bytes written through it (the pre-compression view, which is
what the specification speaks about when it says "decompressing the segment"),
together with a counter of how many of those bytes have been flushed to the
underlying file and are therefore guaranteed visible to an external reader.
External I/O outcomes (file creation, writes, trailer writes) are oracle
parameters of each operation.
-/

namespace Batchy

/-- Little-endian encoding of a natural into a fixed number of bytes, as
produced by the Rust `u64::to_le_bytes` and `i64::to_le_bytes` calls in
`store` (main.rs:175-176). -/
def natToLE : Nat → Nat → List Nat
  | 0, _ => []
  | k + 1, v => v % 256 :: natToLE k (v / 256)

/-- Little-endian decoding of a byte list back into a natural. -/
def leToNat : List Nat → Nat
  | [] => 0
  | b :: bs => b + 256 * leToNat bs

/-- Two-complement little-endian encoding of a signed 64-bit timestamp, as
`i64::to_le_bytes` produces for `now` in `store` (main.rs:170,176). -/
def i64ToLE (t : Int) : List Nat :=
  natToLE 8 (t % (2 : Int) ^ 64).toNat

/-- Decode eight little-endian bytes back into a signed 64-bit integer. -/
def leToI64 (bs : List Nat) : Int :=
  let n := leToNat bs
  if n < 2 ^ 63 then (n : Int) else (n : Int) - 2 ^ 64

/-- One client event: the server-observed arrival timestamp (Unix seconds,
signed 64-bit: `OffsetDateTime::now_utc().unix_timestamp()`, main.rs:170) and
the raw request payload (main.rs:162). -/
structure Record where
  received_at : Int
  payload : List Nat
deriving DecidableEq

/-- The byte frame that `store` writes for one record (main.rs:169,175-177):
an 8-byte little-endian length word holding `8 + 8 + buf.len()`, then the
8-byte little-endian signed timestamp, then the raw payload. -/
def encodeFrame (r : Record) : List Nat :=
  natToLE 8 (8 + 8 + r.payload.length) ++ (i64ToLE r.received_at ++ r.payload)

/-- Concatenation of the frames of a list of records, in order: the content
of one segment stream. -/
def encodeFrames : List Record → List Nat
  | [] => []
  | r :: rs => encodeFrame r ++ encodeFrames rs

/-- A record the server accepts: payload within the 4 MiB cap checked in
`store` (main.rs:163) and a timestamp representable as an `i64`. -/
def frameOk (r : Record) : Prop :=
  r.payload.length ≤ 4 * 1024 * 1024 ∧
    -(2 ^ 63) ≤ r.received_at ∧ r.received_at < 2 ^ 63

instance (r : Record) : Decidable (frameOk r) := by
  unfold frameOk
  infer_instance

/-- Decoder that splits a decompressed segment stream back into records by
applying the frame layout: read the 8-byte length word, then the 8-byte
timestamp, then `length - 16` payload bytes, and repeat.  The first argument
is recursion fuel; one unit is spent per frame. -/
def decodeFrames : Nat → List Nat → Option (List (Int × List Nat))
  | 0, l => if l = [] then some [] else none
  | fuel + 1, l =>
    if l = [] then some []
    else if l.length < 16 then none
    else
      let n := leToNat (l.take 8)
      if n < 16 then none
      else if l.length < n then none
      else
        match decodeFrames fuel (l.drop n) with
        | some rest => some ((leToI64 ((l.drop 8).take 8), (l.drop 16).take (n - 16)) :: rest)
        | none => none

/-- Decode a whole segment stream; the length of the stream bounds the
number of frames, so it serves as fuel. -/
def decodeSegment (bs : List Nat) : Option (List (Int × List Nat)) :=
  decodeFrames bs.length bs

/-- The Segment Writer (struct `Writer`, main.rs:26-29): the zstd encoder is
modelled by the sequence of bytes written through it (`stream`, the
pre-compression view) plus `flushed`, the count of those bytes already pushed
out of the internal compressor buffers and visible to an external reader of
the file.  Calls to `write_all` grow `stream` only; only an explicit flush
or the finish-trailer path makes bytes visible. -/
structure Writer where
  name : String
  stream : List Nat
  flushed : Nat
deriving DecidableEq

/-- A finalized segment file on disk: its name and the (decompressed) byte
content, complete with trailer. -/
structure Segment where
  name : String
  content : List Nat
deriving DecidableEq

/-- The mutable state of the wired program: the mutex-guarded writer slot
(`Arc<Mutex<Option<Writer>>>`, main.rs:32,207) and the finalized segment
files accumulated on disk. -/
structure SysState where
  slot : Option Writer
  completed : List Segment
deriving DecidableEq

/-- Response bodies the handlers produce, named after the JSON texts in
main.rs (the `buffered: true` object of `store`, the `error: too long`
object, the `error: internal server error` object of `okay_or_500`, and the
empty object of `cycle`). -/
inductive Body
  | bufferedTrue
  | errorTooLong
  | internalError
  | emptyObj
deriving DecidableEq

/-- An HTTP status code paired with a response body. -/
structure HttpResp where
  status : Nat
  body : Body
deriving DecidableEq

/-- Oracle for the three `write_all` calls of `store` (main.rs:175-177):
either all succeed, or the first, second or third fails (writes before the
failing one have already gone into the compressor). -/
inductive WriteOutcome
  | allOk
  | failLen
  | failTs
  | failPayload
deriving DecidableEq

/-- Effect of the three `write_all` calls of `store` on the held writer
(main.rs:175-177): the length word, the timestamp, then the payload are
appended to the compressor stream; the boolean reports whether all three
writes succeeded.  No flush is issued on any path. -/
def writeStore (w : Writer) (buf : List Nat) (now : Int) :
    WriteOutcome → Writer × Bool
  | .allOk =>
    ({ w with stream := w.stream ++ encodeFrame ⟨now, buf⟩ }, true)
  | .failLen => (w, false)
  | .failTs =>
    ({ w with stream := w.stream ++ natToLE 8 (8 + 8 + buf.length) }, false)
  | .failPayload =>
    ({ w with stream := w.stream ++ natToLE 8 (8 + 8 + buf.length) ++ i64ToLE now },
      false)

/-- Handler of `POST /store` (main.rs:162-184).  Bodies above 4 MiB are
rejected with 400 before touching the slot; otherwise the framed record is
written through the held writer, answering 200, or 500 via `okay_or_500`
when a write fails — the writer stays in the slot either way.  The `none`
result models the `unimplemented!` panic of the empty-slot branch
(main.rs:180). -/
def store (st : SysState) (buf : List Nat) (now : Int) (oc : WriteOutcome) :
    Option (SysState × HttpResp) :=
  if buf.length > 4 * 1024 * 1024 then
    some (st, ⟨400, Body.errorTooLong⟩)
  else
    match st.slot with
    | some w =>
      let r := writeStore w buf now oc
      if r.2 then some ({ st with slot := some r.1 }, ⟨200, Body.bufferedTrue⟩)
      else some ({ st with slot := some r.1 }, ⟨500, Body.internalError⟩)
    | none => none

/-- The `finish` helper (main.rs:36-45): takes the writer out of the given
option, writes the zstd trailer and flushes the file.  Result: `none` models
the `unimplemented!("already shutdown")` panic when the option is empty;
otherwise it yields the finalized segment (when trailer write and flush
succeeded, per the `ioOk` oracle) along with the success flag.  After the
call the option is empty in every non-panicking case, because `take` runs
first. -/
def finish (writer : Option Writer) (ioOk : Bool) :
    Option (Option Segment × Bool) :=
  match writer with
  | some w => if ioOk then some (some ⟨w.name, w.stream⟩, true) else some (none, false)
  | none => none

/-- The `new_file` helper (main.rs:193-201): creates the segment file named
for the current instant and wraps it in a fresh zstd encoder.  The oracle
says whether creation succeeded; the name is a parameter because it is
derived from the wall clock (`path_for_now`, main.rs:186-191). -/
def new_file (createOk : Bool) (name : String) : Option Writer :=
  if createOk then some ⟨name, [], 0⟩ else none

/-- Handler of `POST /api/cycle` (main.rs:136-144; admin.rs:109-117 is
verbatim the same logic):
`let mut previous = state.out.lock().await.replace(new_file(&state.logger)?);`
evaluates `new_file` first, so when creation fails the `?` returns 500
before `replace` runs and the slot is left untouched; when creation succeeds
the new writer is swapped in and the previous slot content is finished.
`none` models the panic of `finish` on an empty previous slot. -/
def cycle (st : SysState) (createOk : Bool) (newName : String) (finishOk : Bool) :
    Option (SysState × HttpResp) :=
  match new_file createOk newName with
  | none => some (st, ⟨500, Body.internalError⟩)
  | some w =>
    let previous := st.slot
    let st1 : SysState := { st with slot := some w }
    match finish previous finishOk with
    | none => none
    | some (seg, ok) =>
      let st2 : SysState := { st1 with completed := st1.completed ++ seg.toList }
      if ok then some (st2, ⟨200, Body.emptyObj⟩)
      else some (st2, ⟨500, Body.internalError⟩)

/-- The shutdown path of `main` (main.rs:228-229): after the server stops,
the slot is locked one last time and `finish` is called on it; the boolean
reports whether the trailer write succeeded (on failure `main` returns the
error).  `none` models the panic of `finish` on an empty slot. -/
def shutdownFinish (st : SysState) (finishOk : Bool) :
    Option (SysState × Bool) :=
  match finish st.slot finishOk with
  | none => none
  | some (seg, ok) =>
    some ({ slot := none, completed := st.completed ++ seg.toList }, ok)

/-- Interval of the background rotation timer in seconds
(admin.rs:120-121: `let hour = 60 * 60;` and `Duration::from_secs(24 * hour)`). -/
def timer_interval_secs : Nat := 24 * (60 * 60)

/-- One loop iteration of `time_based_cycle` (admin.rs:125-144): first
`finish` the slot in place (its failure only logged), then `new_file`,
storing the new writer back only when creation succeeded (its failure only
logged, leaving the slot empty).  `none` models the panic of `finish` on an
empty slot.  Note this inlines its own rotation ordering instead of calling
`cycle`, and admin.rs is not declared as a module by main.rs. -/
def time_based_cycle_step (st : SysState) (createOk : Bool) (newName : String)
    (finishOk : Bool) : Option SysState :=
  match finish st.slot finishOk with
  | none => none
  | some (seg, _ok) =>
    let st1 : SysState := { slot := none, completed := st.completed ++ seg.toList }
    match new_file createOk newName with
    | some next => some { st1 with slot := some next }
    | none => some st1

/-- The route table built in `main` (main.rs:213-218): method and path of
every registered route. -/
def mainRoutes : List (String × String) :=
  [("POST", "/store"), ("GET", "/api/raw"), ("GET", "/api/raw/:name"),
    ("POST", "/api/cycle")]

/-- The state right after a successful startup (main.rs:207): the slot holds
a fresh writer for the first segment and no finalized segment exists. -/
def startupState (name : String) : SysState :=
  { slot := some ⟨name, [], 0⟩, completed := [] }

/-- Run a sequence of `store` calls that are all expected to succeed with
status 200 (all write oracles report success); `none` if any call panics or
answers anything but 200. -/
def runStoresOk : SysState → List Record → Option SysState
  | st, [] => some st
  | st, r :: rs =>
    match store st r.payload r.received_at .allOk with
    | some (st1, resp) => if resp.status = 200 then runStoresOk st1 rs else none
    | none => none

/-- The whole lifetime of the process in the shutdown-durability scenario:
successful startup, a sequence of appends, then graceful shutdown with a
successful final `finish`; the result is the list of finalized segment
files, `none` if anything panicked or failed. -/
def main_scenario (name : String) (recs : List Record) : Option (List Segment) :=
  match runStoresOk (startupState name) recs with
  | some st =>
    match shutdownFinish st true with
    | some (stF, _ok) => some stF.completed
    | none => none
  | none => none

/-- One mutating request of the wired program: a `store` call with its write
oracle, or a `cycle` call with its creation and finish oracles.  The
read-only handlers (`list_files`, `fetch_raw`) do not touch the slot. -/
inductive Op
  | storeOp (payload : List Nat) (now : Int) (oc : WriteOutcome)
  | cycleOp (createOk : Bool) (newName : String) (finishOk : Bool)

/-- Dispatch one request against the shared state. -/
def stepOp (st : SysState) : Op → Option (SysState × HttpResp)
  | .storeOp p now oc => store st p now oc
  | .cycleOp c n f => cycle st c n f

/-- Run a sequence of requests; `none` as soon as any handler panics. -/
def runOps : SysState → List Op → Option SysState
  | st, [] => some st
  | st, op :: ops =>
    match stepOp st op with
    | some (st1, _) => runOps st1 ops
    | none => none

/-- One entry of the working directory as `read_dir` yields it: the OS file
name (`none` models a name that is not valid UTF-8, for which `to_str()`
returns `None` and the entry is skipped, main.rs:72-75) and the metadata
byte length (main.rs:89). -/
structure DirEntry where
  fileName : Option String
  byteLen : Nat

/-- One row of the catalog listing (struct `FileListing`, main.rs:47-52). -/
structure FileListing where
  name : String
  compressed_size_estimate : Nat
  live : Bool
deriving DecidableEq

/-- The segment file suffix of main.rs (`let ext = ".events.zstd";`,
main.rs:77), also appended by `path_for_now` (main.rs:190). -/
def segmentExt : String := ".events.zstd"

/-- The live name read from the slot at the top of `list_files`
(main.rs:60-66): the held writer name, or the empty string when the slot is
empty. -/
def liveName (st : SysState) : String :=
  match st.slot with
  | some w => w.name
  | none => ""

/-- The per-entry logic of the `list_files` loop (main.rs:69-96): skip
non-UTF8 names; skip names lacking the segment suffix; compare the full name
against the live name; strip the suffix; skip stripped names the timestamp
parser rejects (`parse_date` delegates to the external `time` crate, so the
parser is a parameter); keep the stripped name with the metadata length. -/
def keepEntry (parse_ok : String → Bool) (live_name : String) :
    DirEntry → Option FileListing
  | ⟨none, _⟩ => none
  | ⟨some val, len⟩ =>
    if val.endsWith segmentExt then
      if parse_ok (val.dropRight segmentExt.length) then
        some ⟨val.dropRight segmentExt.length, len, val == live_name⟩
      else none
    else none

/-- Comparison used by the final `items.sort_by_key(|v| v.name.to_string())`
(main.rs:97): ascending lexicographic order on the reported name. -/
def nameLe (a b : FileListing) : Bool :=
  decide (a.name ≤ b.name)

/-- Handler of `GET /api/raw` (main.rs:58-102) as a pure function of the
directory entries, the live name and the timestamp parser: collect the kept
entries in directory order, then sort them by name. -/
def list_files (parse_ok : String → Bool) (live_name : String)
    (entries : List DirEntry) : List FileListing :=
  (entries.filterMap (keepEntry parse_ok live_name)).mergeSort nameLe

/-- The payload bytes of the text "hello world" (tests/smoke.rs:27). -/
def helloBytes : List Nat :=
  [104, 101, 108, 108, 111, 32, 119, 111, 114, 108, 100]

/-- The payload bytes of the text "goodbye world" (tests/smoke.rs:28). -/
def goodbyeBytes : List Nat :=
  [103, 111, 111, 100, 98, 121, 101, 32, 119, 111, 114, 108, 100]

/-- The two records of the concrete shutdown-durability scenario, with
arrival timestamps 0 and 1. -/
def demoRecs : List Record :=
  [⟨0, helloBytes⟩, ⟨1, goodbyeBytes⟩]

theorem natToLE_length (k v : Nat) : (natToLE k v).length = k := by
  induction k generalizing v with
  | zero => rfl
  | succ k ih => simp [natToLE, ih]

theorem leToNat_natToLE (k v : Nat) (h : v < 256 ^ k) :
    leToNat (natToLE k v) = v := by
  induction k generalizing v with
  | zero =>
    simp [natToLE, leToNat]
    omega
  | succ k ih =>
    have hdiv : v / 256 < 256 ^ k := by
      rw [Nat.div_lt_iff_lt_mul (by norm_num)]
      calc v < 256 ^ (k + 1) := h
        _ = 256 ^ k * 256 := by ring
    simp [natToLE, leToNat, ih (v / 256) hdiv]
    omega

theorem i64ToLE_length (t : Int) : (i64ToLE t).length = 8 :=
  natToLE_length 8 _

theorem leToI64_i64ToLE (t : Int) (h1 : -(2 ^ 63) ≤ t) (h2 : t < 2 ^ 63) :
    leToI64 (i64ToLE t) = t := by
  have h64 : (0 : Int) < 2 ^ 64 := by norm_num
  have hge : (0 : Int) ≤ t % 2 ^ 64 := Int.emod_nonneg t (by norm_num)
  have hlt : t % 2 ^ 64 < 2 ^ 64 := Int.emod_lt_of_pos t h64
  have hnat : (((t % 2 ^ 64).toNat : Int)) = t % 2 ^ 64 := Int.toNat_of_nonneg hge
  have hpow : (256 : Nat) ^ 8 = 2 ^ 64 := by norm_num
  have hlt2 : (t % 2 ^ 64).toNat < 256 ^ 8 := by
    rw [hpow]
    have h2' : ((2 : Int) ^ 64) = ((2 ^ 64 : Nat) : Int) := by push_cast
    omega
  unfold leToI64 i64ToLE
  rw [leToNat_natToLE 8 _ hlt2]
  dsimp only
  have hmod : t % 2 ^ 64 = t % 18446744073709551616 := by norm_num
  have h63 : (2 : Int) ^ 63 = 9223372036854775808 := by norm_num
  have h63n : (2 : Nat) ^ 63 = 9223372036854775808 := by norm_num
  split <;> rename_i hcase <;> push_cast at * <;> omega

theorem encodeFrame_length (r : Record) :
    (encodeFrame r).length = 16 + r.payload.length := by
  simp [encodeFrame, natToLE_length, i64ToLE_length]
  omega

theorem encodeFrames_length_ge (rs : List Record) :
    rs.length ≤ (encodeFrames rs).length := by
  induction rs with
  | nil => simp [encodeFrames]
  | cons r rs ih =>
    simp [encodeFrames, encodeFrame_length]
    omega

theorem decodeFrames_encodeFrames (rs : List Record) (fuel : Nat)
    (hf : rs.length ≤ fuel) (hok : ∀ r ∈ rs, frameOk r) :
    decodeFrames fuel (encodeFrames rs)
      = some (rs.map fun r => (r.received_at, r.payload)) := by
  induction rs generalizing fuel with
  | nil => cases fuel <;> simp [decodeFrames, encodeFrames]
  | cons r rs ih =>
    obtain ⟨fuel, rfl⟩ : ∃ f, fuel = f + 1 :=
      ⟨fuel - 1, by simp at hf; omega⟩
    obtain ⟨hlen, ht1, ht2⟩ := hok r (by simp)
    have hokrs : ∀ x ∈ rs, frameOk x := fun x hx => hok x (by simp [hx])
    have hA : (natToLE 8 (8 + 8 + r.payload.length)).length = 8 := natToLE_length _ _
    have hB : (i64ToLE r.received_at).length = 8 := i64ToLE_length _
    have hhead : (encodeFrame r).length = 16 + r.payload.length := encodeFrame_length r
    have hl : encodeFrames (r :: rs) = encodeFrame r ++ encodeFrames rs := rfl
    have hlenl : (encodeFrames (r :: rs)).length
        = 16 + r.payload.length + (encodeFrames rs).length := by
      simp [hl, hhead]
    have hne : encodeFrames (r :: rs) ≠ [] := by
      intro h
      rw [h] at hlenl
      simp at hlenl
      omega
    have hassoc : encodeFrames (r :: rs)
        = natToLE 8 (8 + 8 + r.payload.length)
            ++ ((i64ToLE r.received_at ++ r.payload) ++ encodeFrames rs) := by
      simp [hl, encodeFrame]
    have htake8 : (encodeFrames (r :: rs)).take 8 = natToLE 8 (8 + 8 + r.payload.length) := by
      rw [hassoc]
      exact List.take_left' hA
    have hn : leToNat ((encodeFrames (r :: rs)).take 8) = 8 + 8 + r.payload.length := by
      rw [htake8]
      apply leToNat_natToLE
      have : (256 : Nat) ^ 8 = 18446744073709551616 := by norm_num
      omega
    have hdrop8 : (encodeFrames (r :: rs)).drop 8
        = (i64ToLE r.received_at ++ r.payload) ++ encodeFrames rs := by
      rw [hassoc]
      exact List.drop_left' hA
    have hts : ((encodeFrames (r :: rs)).drop 8).take 8 = i64ToLE r.received_at := by
      rw [hdrop8, List.append_assoc]
      exact List.take_left' hB
    have hdrop16 : (encodeFrames (r :: rs)).drop 16 = r.payload ++ encodeFrames rs := by
      have h16 : (16 : Nat) = 8 + 8 := by norm_num
      rw [h16, ← List.drop_drop, hdrop8, List.append_assoc]
      exact List.drop_left' hB
    have hpay : ((encodeFrames (r :: rs)).drop 16).take (8 + 8 + r.payload.length - 16)
        = r.payload := by
      have : 8 + 8 + r.payload.length - 16 = r.payload.length := by omega
      rw [this, hdrop16]
      exact List.take_left' rfl
    have hdropn : (encodeFrames (r :: rs)).drop (8 + 8 + r.payload.length)
        = encodeFrames rs := by
      rw [hl]
      apply List.drop_left'
      omega
    rw [show decodeFrames (fuel + 1) (encodeFrames (r :: rs))
        = if encodeFrames (r :: rs) = [] then some []
          else if (encodeFrames (r :: rs)).length < 16 then none
          else
            let n := leToNat ((encodeFrames (r :: rs)).take 8)
            if n < 16 then none
            else if (encodeFrames (r :: rs)).length < n then none
            else
              match decodeFrames fuel ((encodeFrames (r :: rs)).drop n) with
              | some rest =>
                some ((leToI64 (((encodeFrames (r :: rs)).drop 8).take 8),
                  ((encodeFrames (r :: rs)).drop 16).take (n - 16)) :: rest)
              | none => none
      from rfl]
    rw [if_neg hne, if_neg (by omega)]
    dsimp only
    rw [hn, if_neg (by omega), if_neg (by omega), hdropn,
      ih fuel (by simp at hf; omega) hokrs, hts, hpay,
      leToI64_i64ToLE r.received_at ht1 ht2]
    simp

theorem store_active_ok (st : SysState) (w : Writer) (buf : List Nat)
    (now : Int) (hw : st.slot = some w)
    (hlen : buf.length ≤ 4 * 1024 * 1024) :
    store st buf now .allOk
      = some ({ st with slot := some ⟨w.name, w.stream ++ encodeFrame ⟨now, buf⟩, w.flushed⟩ },
          ⟨200, Body.bufferedTrue⟩) := by
  unfold store writeStore
  rw [if_neg (by omega), hw]
  rfl

theorem runStoresOk_active (n : String) (s : List Nat) (f : Nat)
    (c : List Segment) (rs : List Record)
    (hok : ∀ r ∈ rs, r.payload.length ≤ 4 * 1024 * 1024) :
    runStoresOk ⟨some ⟨n, s, f⟩, c⟩ rs
      = some ⟨some ⟨n, s ++ encodeFrames rs, f⟩, c⟩ := by
  induction rs generalizing s with
  | nil => simp [runStoresOk, encodeFrames]
  | cons r rs ih =>
    have hr : r.payload.length ≤ 4 * 1024 * 1024 := hok r (by simp)
    have hrs : ∀ x ∈ rs, x.payload.length ≤ 4 * 1024 * 1024 :=
      fun x hx => hok x (by simp [hx])
    have hstore := store_active_ok ⟨some ⟨n, s, f⟩, c⟩ ⟨n, s, f⟩
      r.payload r.received_at rfl hr
    simp only [runStoresOk, hstore]
    norm_num
    rw [ih (s ++ encodeFrame r) hrs]
    simp [encodeFrames, List.append_assoc]

theorem stepOp_preserves_slot (st : SysState) (op : Op) (h : st.slot.isSome) :
    ∃ st1 resp, stepOp st op = some (st1, resp) ∧ st1.slot.isSome := by
  obtain ⟨w, hw⟩ := Option.isSome_iff_exists.mp h
  cases op with
  | storeOp p now oc =>
    simp only [stepOp, store, hw]
    by_cases hbig : p.length > 4 * 1024 * 1024
    · rw [if_pos hbig]
      exact ⟨st, _, rfl, h⟩
    · rw [if_neg hbig]
      cases oc <;> exact ⟨_, _, rfl, rfl⟩
  | cycleOp c nn f =>
    cases c with
    | false => exact ⟨st, ⟨500, Body.internalError⟩, rfl, h⟩
    | true =>
      simp only [stepOp, cycle, new_file, finish, hw]
      cases f <;> exact ⟨_, _, rfl, rfl⟩

theorem keepEntry_eq_some (parse_ok : String → Bool) (ln : String)
    (e : DirEntry) (x : FileListing) :
    keepEntry parse_ok ln e = some x ↔
      ∃ val, e.fileName = some val ∧ val.endsWith segmentExt = true ∧
        parse_ok (val.dropRight segmentExt.length) = true ∧
        x = ⟨val.dropRight segmentExt.length, e.byteLen, val == ln⟩ := by
  obtain ⟨fn, len⟩ := e
  cases fn with
  | none => simp [keepEntry]
  | some val =>
    by_cases h1 : val.endsWith segmentExt = true
    · by_cases h2 : parse_ok (val.dropRight segmentExt.length) = true
      · simp [keepEntry, h1, h2]
        exact ⟨fun hx => hx.symm, fun hx => hx.symm⟩
      · simp [keepEntry, h1, h2]
    · simp [keepEntry, h1]

/-- C2: the claim says the HTTP surface includes GET /healthcheck answering
by the state of the writer slot; but the route table built by `main`
(main.rs:213-218) registers no such route, so the request falls through to
the 404 fallback of the router — even though tests/smoke.rs:17-18 asserts
the endpoint answers 200.  This theorem evaluates the route table at the
failing request. -/
theorem C2_healthcheck_route_missing :
    ("GET", "/healthcheck") ∉ mainRoutes := by
  decide

/-- C3 counterexample: a concrete successful append on a fresh writer
answers 200 with eighteen bytes newly written into the compressor, yet the
flushed byte count — what an external reader of the segment file is
guaranteed to see — is still zero: `store` issues no flush before
returning. -/
theorem C3_counterexample :
    store ⟨some ⟨"A", [], 0⟩, []⟩ [104, 105] 0 .allOk
      = some (⟨some ⟨"A",
          [18, 0, 0, 0, 0, 0, 0, 0, 0, 0, 0, 0, 0, 0, 0, 0, 104, 105], 0⟩, []⟩,
        ⟨200, Body.bufferedTrue⟩) := by
  decide

/-- C3 amended: every accepted append writes the framed record through the
compressor before returning 200, but flushes nothing: the stream grows by
the frame while the flushed counter is unchanged, so the bytes of the
record are guaranteed visible to an external reader only once the segment
is finalized, not immediately after the call returns. -/
theorem C3_store_writes_without_flush (st : SysState) (w : Writer)
    (buf : List Nat) (now : Int) (hw : st.slot = some w)
    (hlen : buf.length ≤ 4 * 1024 * 1024) :
    store st buf now .allOk
      = some ({ st with
            slot := some ⟨w.name, w.stream ++ encodeFrame ⟨now, buf⟩, w.flushed⟩ },
          ⟨200, Body.bufferedTrue⟩) :=
  store_active_ok st w buf now hw hlen

/-- Witness for C3: the amended statement applied to a fresh writer and a
one-byte payload. -/
theorem C3_store_writes_without_flush_witness :
    store ⟨some ⟨"A", [], 0⟩, []⟩ [7] 3 .allOk
      = some (⟨some ⟨"A", [] ++ encodeFrame ⟨3, [7]⟩, 0⟩, []⟩,
        ⟨200, Body.bufferedTrue⟩) :=
  C3_store_writes_without_flush ⟨some ⟨"A", [], 0⟩, []⟩ ⟨"A", [], 0⟩ [7] 3 rfl
    (by decide)

/-- C4 counterexample: rotating with an active previous writer while
creation of the replacement fails answers 500, but the previous writer is
still in the slot, untouched, and no segment has been finalized — the `?`
after `new_file` returns before `replace` runs (main.rs:138). -/
theorem C4_counterexample :
    cycle ⟨some ⟨"A", [1, 2], 0⟩, []⟩ false "B" true
      = some (⟨some ⟨"A", [1, 2], 0⟩, []⟩, ⟨500, Body.internalError⟩) := by
  decide

/-- C4 amended: when creating the replacement writer fails, `cycle` answers
500 and returns the state unchanged: the previous writer stays active in
the slot and is not finalized; the old segment is closed only when the new
writer was created successfully. -/
theorem C4_cycle_create_fail_keeps_previous (st : SysState) (newName : String)
    (finishOk : Bool) :
    cycle st false newName finishOk = some (st, ⟨500, Body.internalError⟩) :=
  rfl

/-- Witness for C4: the amended statement applied to a concrete state. -/
theorem C4_cycle_create_fail_keeps_previous_witness :
    cycle ⟨some ⟨"A", [1], 0⟩, [⟨"Z", []⟩]⟩ false "B" false
      = some (⟨some ⟨"A", [1], 0⟩, [⟨"Z", []⟩]⟩, ⟨500, Body.internalError⟩) :=
  C4_cycle_create_fail_keeps_previous ⟨some ⟨"A", [1], 0⟩, [⟨"Z", []⟩]⟩ "B" false

/-- C5 counterexample: a concrete append whose second write fails answers
500, yet the writer is still in the slot (the slot is not `NoWriter`) and
nothing was finalized — `store` accesses the slot with `as_mut` and never
takes the writer out (main.rs:173-181). -/
theorem C5_counterexample :
    store ⟨some ⟨"A", [], 0⟩, []⟩ [104] 0 .failTs
      = some (⟨some ⟨"A", [17, 0, 0, 0, 0, 0, 0, 0], 0⟩, []⟩,
        ⟨500, Body.internalError⟩) := by
  decide

/-- C5 amended: when a write fails during an append, the 500 IoError is
propagated to the caller, but the writer manager performs no finalize and
no transition to an empty slot: the tainted writer remains in the slot (with
whatever prefix of the frame reached the compressor) and will serve the
next append. -/
theorem C5_store_failure_keeps_writer (st : SysState) (w : Writer)
    (buf : List Nat) (now : Int) (oc : WriteOutcome) (hw : st.slot = some w)
    (hlen : buf.length ≤ 4 * 1024 * 1024) (hoc : oc ≠ .allOk) :
    (store st buf now oc).map (fun p => (p.1.slot.isSome, p.1.completed, p.2))
      = some (true, st.completed, ⟨500, Body.internalError⟩) := by
  unfold store writeStore
  rw [if_neg (by omega), hw]
  cases oc with
  | allOk => exact absurd rfl hoc
  | failLen => rfl
  | failTs => rfl
  | failPayload => rfl

/-- Witness for C5: the amended statement applied to a concrete failing
append. -/
theorem C5_store_failure_keeps_writer_witness :
    (store ⟨some ⟨"A", [], 0⟩, []⟩ [9] 2 .failPayload).map
        (fun p => (p.1.slot.isSome, p.1.completed, p.2))
      = some (true, ([] : List Segment), ⟨500, Body.internalError⟩) :=
  C5_store_failure_keeps_writer ⟨some ⟨"A", [], 0⟩, []⟩ ⟨"A", [], 0⟩ [9] 2
    .failPayload rfl (by decide) (by decide)

/-- C6 counterexample: from the same active-writer state with identical
oracle outcomes (creation of the replacement fails, finalize io fine), the
timer path finalizes the old writer and leaves the slot empty while the
administrative cycle handler keeps the old writer active and finalizes
nothing — the two triggers do not share one rotation logic and do not
produce identical slot transitions. -/
theorem C6_counterexample :
    time_based_cycle_step ⟨some ⟨"A", [1], 0⟩, []⟩ false "B" true
        = some ⟨none, [⟨"A", [1]⟩]⟩ ∧
      cycle ⟨some ⟨"A", [1], 0⟩, []⟩ false "B" true
        = some (⟨some ⟨"A", [1], 0⟩, []⟩, ⟨500, Body.internalError⟩) :=
  ⟨rfl, rfl⟩

/-- C6 amended: admin.rs defines a timer loop with a 24-hour interval whose
first immediate tick is consumed, operating on the same mutex-guarded slot,
but it does not invoke the `cycle` entry point: it inlines its own rotation
that finishes the old writer first and then creates the new one.  The two
agree when creation and finalize both succeed, but diverge when creation
fails: the timer leaves the old writer finalized and the slot empty while
`cycle` answers 500 leaving the old writer active and unfinalized.
(main.rs moreover never spawns this timer task: admin.rs is not declared as
a module.) -/
theorem C6_timer_duplicates_rotation (st : SysState) (w : Writer)
    (newName : String) (hw : st.slot = some w) :
    timer_interval_secs = 86400 ∧
      time_based_cycle_step st true newName true
          = (cycle st true newName true).map Prod.fst ∧
      time_based_cycle_step st false newName true
          = some ⟨none, st.completed ++ [⟨w.name, w.stream⟩]⟩ ∧
      cycle st false newName true = some (st, ⟨500, Body.internalError⟩) := by
  refine ⟨rfl, ?_, ?_, rfl⟩
  · simp [time_based_cycle_step, cycle, new_file, finish, hw]
  · simp [time_based_cycle_step, new_file, finish, hw]

/-- Witness for C6: the amended statement applied to a concrete state. -/
theorem C6_timer_duplicates_rotation_witness :
    timer_interval_secs = 86400 ∧
      time_based_cycle_step ⟨some ⟨"A", [5], 2⟩, []⟩ true "B" true
          = (cycle ⟨some ⟨"A", [5], 2⟩, []⟩ true "B" true).map Prod.fst ∧
      time_based_cycle_step ⟨some ⟨"A", [5], 2⟩, []⟩ false "B" true
          = some ⟨none, [] ++ [⟨"A", [5]⟩]⟩ ∧
      cycle ⟨some ⟨"A", [5], 2⟩, []⟩ false "B" true
          = some (⟨some ⟨"A", [5], 2⟩, []⟩, ⟨500, Body.internalError⟩) :=
  C6_timer_duplicates_rotation ⟨some ⟨"A", [5], 2⟩, []⟩ ⟨"A", [5], 2⟩ "B" rfl

/-- C8: a body of exactly 4 MiB passes the size check and is appended with
200, while any body strictly larger is rejected with 400 and the too-long
body before any I/O: whatever the slot and the write oracle, the state —
slot, writer stream and finalized files — comes back unchanged. -/
theorem C8_size_boundary (st : SysState) (w : Writer) (buf big : List Nat)
    (now : Int) (hw : st.slot = some w) (hbuf : buf.length = 4 * 1024 * 1024)
    (hbig : big.length > 4 * 1024 * 1024) :
    store st buf now .allOk
        = some ({ st with
              slot := some ⟨w.name, w.stream ++ encodeFrame ⟨now, buf⟩, w.flushed⟩ },
            ⟨200, Body.bufferedTrue⟩) ∧
      ∀ oc st2, store st2 big now oc = some (st2, ⟨400, Body.errorTooLong⟩) := by
  constructor
  · exact store_active_ok st w buf now hw (by omega)
  · intro oc st2
    unfold store
    rw [if_pos hbig]

/-- Witness for C8: the boundary applied to the all-zero payloads of length
exactly 4 MiB and 4 MiB plus one. -/
theorem C8_size_boundary_witness :
    store (startupState "A") (List.replicate (4 * 1024 * 1024) 7) 0 .allOk
        = some (⟨some ⟨"A", [] ++ encodeFrame ⟨0, List.replicate (4 * 1024 * 1024) 7⟩, 0⟩, []⟩,
            ⟨200, Body.bufferedTrue⟩) ∧
      ∀ oc st2, store st2 (List.replicate (4 * 1024 * 1024 + 1) 7) 0 oc
        = some (st2, ⟨400, Body.errorTooLong⟩) :=
  C8_size_boundary (startupState "A") ⟨"A", [], 0⟩
    (List.replicate (4 * 1024 * 1024) 7) (List.replicate (4 * 1024 * 1024 + 1) 7)
    0 rfl (by rw [List.length_replicate]) (by rw [List.length_replicate]; omega)

/-- C9: in the program as wired in main.rs, once startup has succeeded the
slot always holds a writer: no sequence of store and cycle requests, with
any I/O outcomes, ever empties it or reaches the panicking empty-slot
branches, and the final shutdown finalize therefore always finds a writer
to finalize. -/
theorem C9_slot_always_some (st0 : SysState) (ops : List Op)
    (h : st0.slot.isSome) :
    ∃ st1, runOps st0 ops = some st1 ∧ st1.slot.isSome ∧
      ∀ fok, (shutdownFinish st1 fok).isSome := by
  induction ops generalizing st0 with
  | nil =>
    refine ⟨st0, by simp [runOps], h, fun fok => ?_⟩
    obtain ⟨w, hw⟩ := Option.isSome_iff_exists.mp h
    cases fok <;> simp [shutdownFinish, finish, hw]
  | cons op ops ih =>
    obtain ⟨st1, resp, hstep, h1⟩ := stepOp_preserves_slot st0 op h
    obtain ⟨st2, hrun, h2, h3⟩ := ih st1 h1
    exact ⟨st2, by simp [runOps, hstep, hrun], h2, h3⟩

/-- Witness for C9: the invariant applied to the startup state and a
concrete request sequence mixing successful and failing appends and
rotations. -/
theorem C9_slot_always_some_witness :
    ∃ st1, runOps (startupState "A")
        [Op.storeOp [1, 2] 5 .allOk, Op.cycleOp true "B" true,
          Op.storeOp [3] 6 .failTs, Op.cycleOp false "C" true,
          Op.cycleOp true "D" false] = some st1 ∧
      st1.slot.isSome ∧ ∀ fok, (shutdownFinish st1 fok).isSome :=
  C9_slot_always_some (startupState "A") _ rfl

/-- C1: starting fresh, any sequence of appends that all answer 200,
followed by graceful shutdown with a successful final finish, leaves
exactly one completed segment — named for the startup instant, trailer
written — whose content decodes under the record framing to exactly the
appended records in order; in particular the decoded payloads are the
appended payloads in append order. -/
theorem C1_shutdown_durability (name : String) (recs : List Record)
    (hok : ∀ r ∈ recs, frameOk r) :
    main_scenario name recs = some [⟨name, encodeFrames recs⟩] ∧
      decodeSegment (encodeFrames recs)
          = some (recs.map fun r => (r.received_at, r.payload)) ∧
      (decodeSegment (encodeFrames recs)).map (fun l => l.map Prod.snd)
          = some (recs.map fun r => r.payload) := by
  have hrt : decodeSegment (encodeFrames recs)
      = some (recs.map fun r => (r.received_at, r.payload)) :=
    decodeFrames_encodeFrames recs _ (encodeFrames_length_ge recs) hok
  refine ⟨?_, hrt, ?_⟩
  · have h1 : runStoresOk (startupState name) recs
        = some ⟨some ⟨name, [] ++ encodeFrames recs, 0⟩, []⟩ :=
      runStoresOk_active name [] 0 [] recs (fun r hr => (hok r hr).1)
    unfold main_scenario
    rw [h1]
    simp [shutdownFinish, finish]
  · rw [hrt]
    simp

/-- Witness for C1: the concrete scenario with the payloads "hello world"
then "goodbye world". -/
theorem C1_shutdown_durability_witness :
    main_scenario "2024-01-01T00:00:00Z.events.zstd" demoRecs
        = some [⟨"2024-01-01T00:00:00Z.events.zstd", encodeFrames demoRecs⟩] ∧
      decodeSegment (encodeFrames demoRecs)
          = some (demoRecs.map fun r => (r.received_at, r.payload)) ∧
      (decodeSegment (encodeFrames demoRecs)).map (fun l => l.map Prod.snd)
          = some (demoRecs.map fun r => r.payload) :=
  C1_shutdown_durability "2024-01-01T00:00:00Z.events.zstd" demoRecs (by decide)

/-- C10: the frame written for every record accepted by store is the 8-byte
little-endian length word whose value is 16 plus the payload length (it
counts the length word itself and the timestamp), then the 8-byte
little-endian signed timestamp, then the raw payload bytes, frames being
concatenated inside the segment stream; a decoder applying this layout to
the stream recovers each timestamp/payload pair byte for byte in append
order. -/
theorem C10_frame_layout_roundtrip (rs : List Record)
    (hok : ∀ r ∈ rs, frameOk r) :
    (∀ r ∈ rs, encodeFrame r
        = natToLE 8 (16 + r.payload.length)
            ++ (i64ToLE r.received_at ++ r.payload) ∧
        (natToLE 8 (16 + r.payload.length)).length = 8 ∧
        (i64ToLE r.received_at).length = 8) ∧
      decodeSegment (encodeFrames rs)
        = some (rs.map fun r => (r.received_at, r.payload)) := by
  refine ⟨fun r _ => ⟨?_, natToLE_length _ _, i64ToLE_length _⟩, ?_⟩
  · have h16 : 8 + 8 + r.payload.length = 16 + r.payload.length := by omega
    rw [encodeFrame, h16]
  · exact decodeFrames_encodeFrames rs _ (encodeFrames_length_ge rs) hok

/-- Witness for C10: the layout and round trip applied to the two concrete
scenario records. -/
theorem C10_frame_layout_roundtrip_witness :
    (∀ r ∈ demoRecs, encodeFrame r
        = natToLE 8 (16 + r.payload.length)
            ++ (i64ToLE r.received_at ++ r.payload) ∧
        (natToLE 8 (16 + r.payload.length)).length = 8 ∧
        (i64ToLE r.received_at).length = 8) ∧
      decodeSegment (encodeFrames demoRecs)
        = some (demoRecs.map fun r => (r.received_at, r.payload)) :=
  C10_frame_layout_roundtrip demoRecs (by decide)

/-- C7: the catalog keeps exactly the UTF-8 directory entries whose name
ends with the segment suffix and whose suffix-stripped name the timestamp
parser accepts — everything else is silently skipped — reporting for each
the stripped name, the file byte length as the compressed size estimate,
and liveness exactly when the full entry name equals the name of the writer
held in the slot (the empty string when the slot is empty); the result is
sorted by name ascending. -/
theorem C7_catalog (parse_ok : String → Bool) (st : SysState)
    (entries : List DirEntry) :
    List.Sorted (fun a b : FileListing => a.name ≤ b.name)
        (list_files parse_ok (liveName st) entries) ∧
      ∀ x, x ∈ list_files parse_ok (liveName st) entries ↔
        ∃ e ∈ entries, ∃ val, e.fileName = some val ∧
          val.endsWith segmentExt = true ∧
          parse_ok (val.dropRight segmentExt.length) = true ∧
          x = ⟨val.dropRight segmentExt.length, e.byteLen, val == liveName st⟩ := by
  constructor
  · have htrans : ∀ a b c : FileListing,
        nameLe a b = true → nameLe b c = true → nameLe a c = true := by
      intro a b c hab hbc
      simp only [nameLe, decide_eq_true_eq] at *
      exact le_trans hab hbc
    have htotal : ∀ a b : FileListing, (nameLe a b || nameLe b a) = true := by
      intro a b
      rcases le_total a.name b.name with h | h <;> simp [nameLe, h]
    have hs := List.sorted_mergeSort htrans htotal
      (entries.filterMap (keepEntry parse_ok (liveName st)))
    unfold list_files List.Sorted
    refine hs.imp ?_
    intro a b hab
    simpa [nameLe] using hab
  · intro x
    unfold list_files
    rw [(List.mergeSort_perm _ nameLe).mem_iff, List.mem_filterMap]
    constructor
    · rintro ⟨e, he, hk⟩
      obtain ⟨val, h1, h2, h3, h4⟩ := (keepEntry_eq_some _ _ _ _).mp hk
      exact ⟨e, he, val, h1, h2, h3, h4⟩
    · rintro ⟨e, he, val, h1, h2, h3, h4⟩
      exact ⟨e, he, (keepEntry_eq_some _ _ _ _).mpr ⟨val, h1, h2, h3, h4⟩⟩

/-- Witness for C7: the catalog characterization applied to a concrete
directory holding two well-formed segment files (one of them live), an
unrelated file, a malformed-timestamp segment name and a non-UTF8 name. -/
theorem C7_catalog_witness :
    List.Sorted (fun a b : FileListing => a.name ≤ b.name)
        (list_files (fun s => s == "2024-01-01T00:00:00Z" || s == "2024-01-02T00:00:00Z")
          (liveName ⟨some ⟨"2024-01-02T00:00:00Z.events.zstd", [], 0⟩, []⟩)
          [⟨some "2024-01-02T00:00:00Z.events.zstd", 10⟩,
            ⟨some "2024-01-01T00:00:00Z.events.zstd", 7⟩,
            ⟨some "readme.txt", 3⟩, ⟨some "nonsense.events.zstd", 4⟩,
            ⟨none, 5⟩]) ∧
      ∀ x, x ∈ list_files
            (fun s => s == "2024-01-01T00:00:00Z" || s == "2024-01-02T00:00:00Z")
            (liveName ⟨some ⟨"2024-01-02T00:00:00Z.events.zstd", [], 0⟩, []⟩)
            [⟨some "2024-01-02T00:00:00Z.events.zstd", 10⟩,
              ⟨some "2024-01-01T00:00:00Z.events.zstd", 7⟩,
              ⟨some "readme.txt", 3⟩, ⟨some "nonsense.events.zstd", 4⟩,
              ⟨none, 5⟩] ↔
          ∃ e ∈ [⟨some "2024-01-02T00:00:00Z.events.zstd", 10⟩,
              ⟨some "2024-01-01T00:00:00Z.events.zstd", 7⟩,
              ⟨some "readme.txt", 3⟩, ⟨some "nonsense.events.zstd", 4⟩,
              (⟨none, 5⟩ : DirEntry)],
            ∃ val, e.fileName = some val ∧
              val.endsWith segmentExt = true ∧
              (fun s => s == "2024-01-01T00:00:00Z" || s == "2024-01-02T00:00:00Z")
                  (val.dropRight segmentExt.length) = true ∧
              x = ⟨val.dropRight segmentExt.length, e.byteLen,
                val == liveName ⟨some ⟨"2024-01-02T00:00:00Z.events.zstd", [], 0⟩, []⟩⟩ :=
  C7_catalog (fun s => s == "2024-01-01T00:00:00Z" || s == "2024-01-02T00:00:00Z")
    ⟨some ⟨"2024-01-02T00:00:00Z.events.zstd", [], 0⟩, []⟩
    [⟨some "2024-01-02T00:00:00Z.events.zstd", 10⟩,
      ⟨some "2024-01-01T00:00:00Z.events.zstd", 7⟩,
      ⟨some "readme.txt", 3⟩, ⟨some "nonsense.events.zstd", 4⟩, ⟨none, 5⟩]

end Batchy
